import Mathlib

/-!
Verification of the loop-nest transformation / code-generation engine exercised
by the tutorial notebooks (polyhedral domains, iname splitting and tagging,
prefetch staging buffers, scheduling, OpenCL code emission), together with the
PyOpenCL scan and vector-sum examples.

The generated OpenCL kernels printed in the notebooks are embedded as abstract
syntax (`CExp` / `Stm` / `GKernel`); engine operations that the notebooks call
as a black box are modelled from the specification where noted.
-/

/- ## Definitions -/

/-- Expressions of the generated OpenCL dialect: integer literals, named
scalars/loop variables, group/local work-item coordinates `gid(k)`/`lid(k)`,
sums, products, and one-dimensional array reads.  The float literals `-1.0f`
and `-4.0f` of the generated stencil code are exact integer values and are
embedded as the corresponding integer literals. -/
inductive CExp where
  | lit : Int → CExp
  | var : String → CExp
  | gid : Nat → CExp
  | lid : Nat → CExp
  | add : CExp → CExp → CExp
  | mul : CExp → CExp → CExp
  | read : String → CExp → CExp
  deriving DecidableEq, Repr

instance : Add CExp := ⟨CExp.add⟩

instance : Mul CExp := ⟨CExp.mul⟩

/-- Shorthand for an integer-literal expression. -/
def ci (k : Int) : CExp := CExp.lit k

/-- The scalar parameter `n`. -/
def nV : CExp := CExp.var "n"

/-- The loop variable `i`. -/
def iV : CExp := CExp.var "i"

/-- The loop variable `j`. -/
def jV : CExp := CExp.var "j"

/-- `gid(0)`. -/
def g0 : CExp := CExp.gid 0

/-- `gid(1)`. -/
def g1 : CExp := CExp.gid 1

/-- `lid(0)`. -/
def l0 : CExp := CExp.lid 0

/-- `lid(1)`. -/
def l1 : CExp := CExp.lid 1

/-- The fetch-loop variable `u_dim_0_outer`. -/
def o0V : CExp := CExp.var "u_dim_0_outer"

/-- The fetch-loop variable `u_dim_1_outer`. -/
def o1V : CExp := CExp.var "u_dim_1_outer"

/-- Evaluation environment: scalar parameters and loop variables, the group
and local coordinates of the executing work item, and array contents. -/
structure Env where
  par : String → Int
  gidv : Nat → Int
  lidv : Nat → Int
  mem : String → Int → Int

/-- Evaluate a generated-code expression in an environment. -/
def evalE (env : Env) : CExp → Int
  | CExp.lit k => k
  | CExp.var s => env.par s
  | CExp.gid k => env.gidv k
  | CExp.lid k => env.lidv k
  | CExp.add a b => evalE env a + evalE env b
  | CExp.mul a b => evalE env a * evalE env b
  | CExp.read a i => env.mem a (evalE env i)

/-- Statements of the generated OpenCL dialect: a store `arr[idx] = rhs`, a
synchronization call `barrier(fence)`, a counted `for` loop from `lo` to `hi`
inclusive, a guard `if (c1 >= 0 && ... && ck >= 0) body`, and sequencing. -/
inductive Stm where
  | assign : String → CExp → CExp → Stm
  | barrier : String → Stm
  | forUp : String → CExp → CExp → Stm → Stm
  | guarded : List CExp → Stm → Stm
  | seq : Stm → Stm → Stm
  deriving DecidableEq, Repr

/-- A generated kernel: required work-group size, `__local` temporaries with
their (symbolic) element counts, and the body. -/
structure GKernel where
  wgsize : List Nat
  locals : List (String × CExp)
  body : Stm
  deriving DecidableEq, Repr

/-- The five-point-stencil right-hand side shape shared by all generated
kernels: `c*c + -1 + -4*c + xp + xm + yp + ym` (from
`u[..]**2 + -1 + (-4)*u[..] + u[..+1,..] + u[..-1,..] + u[..,..+1] + u[..,..-1]`). -/
def stencilRhs (c xp xm yp ym : CExp) : CExp :=
  c * c + ci (-1) + ci (-4) * c + xp + xm + yp + ym

/-- Store index of the sequential kernel: `(1 + n) * (i + 1) + j + 1`. -/
def seqStoreIdx : CExp := (ci 1 + nV) * (iV + ci 1) + jV + ci 1

/-- Center read index of the sequential kernel: `(2 + n) * (i + 1) + j + 1`. -/
def seqUCenterIdx : CExp := (ci 2 + nV) * (iV + ci 1) + jV + ci 1

/-- Right-hand side of the sequential kernel's single assignment. -/
def seqRhs : CExp :=
  stencilRhs (CExp.read "u" seqUCenterIdx)
    (CExp.read "u" ((ci 2 + nV) * (iV + ci 1 + ci 1) + jV + ci 1))
    (CExp.read "u" ((ci 2 + nV) * (iV + ci 1 + ci (-1)) + jV + ci 1))
    (CExp.read "u" ((ci 2 + nV) * (iV + ci 1) + jV + ci 1 + ci 1))
    (CExp.read "u" ((ci 2 + nV) * (iV + ci 1) + jV + ci 1 + ci (-1)))

/-- The sequential generated kernel (no tags): two nested `for` loops over
`j` and `i`, bounds `0 .. -1 + n`. -/
def seqKernel : GKernel :=
  { wgsize := [1, 1, 1]
    locals := []
    body := Stm.forUp "j" (ci 0) (ci (-1) + nV)
      (Stm.forUp "i" (ci 0) (ci (-1) + nV)
        (Stm.assign "result" seqStoreIdx seqRhs)) }

/-- Right-hand side of the `g.0`/`g.1`-tagged kernel: the sequential body with
`i` replaced by `gid(0)` and `j` by `gid(1)`. -/
def tagRhs : CExp :=
  stencilRhs (CExp.read "u" ((ci 2 + nV) * (g0 + ci 1) + g1 + ci 1))
    (CExp.read "u" ((ci 2 + nV) * (g0 + ci 1 + ci 1) + g1 + ci 1))
    (CExp.read "u" ((ci 2 + nV) * (g0 + ci 1 + ci (-1)) + g1 + ci 1))
    (CExp.read "u" ((ci 2 + nV) * (g0 + ci 1) + g1 + ci 1 + ci 1))
    (CExp.read "u" ((ci 2 + nV) * (g0 + ci 1) + g1 + ci 1 + ci (-1)))

/-- The kernel generated after `tag_inames(knl, i -> g.0, j -> g.1)`: a single
unguarded, loop-free assignment indexed by group coordinates. -/
def taggedKernel : GKernel :=
  { wgsize := [1, 1, 1]
    locals := []
    body := Stm.assign "result" ((ci 1 + nV) * (g0 + ci 1) + g1 + ci 1) tagRhs }

/-- Flattened tile coordinate of the split kernel along dimension 1:
`1 + lid(1) + gid(1) * 16`. -/
def tileI : CExp := ci 1 + l1 + g1 * ci 16

/-- Store index of the split kernel:
`(1 + n) * (1 + lid(1) + gid(1) * 16) + 1 + lid(0) + gid(0) * 16`. -/
def splitStoreIdx : CExp := (ci 1 + nV) * tileI + ci 1 + l0 + g0 * ci 16

/-- Right-hand side of the 16-split kernel's assignment. -/
def splitRhs : CExp :=
  stencilRhs
    (CExp.read "u" ((ci 2 + nV) * tileI + ci 1 + l0 + g0 * ci 16))
    (CExp.read "u" ((ci 2 + nV) * (ci 1 + ci 1 + l1 + g1 * ci 16) + ci 1 + l0 + g0 * ci 16))
    (CExp.read "u" ((ci 2 + nV) * (ci 1 + ci (-1) + l1 + g1 * ci 16) + ci 1 + l0 + g0 * ci 16))
    (CExp.read "u" ((ci 2 + nV) * tileI + ci 1 + ci 1 + l0 + g0 * ci 16))
    (CExp.read "u" ((ci 2 + nV) * tileI + ci 1 + ci (-1) + l0 + g0 * ci 16))

/-- The guard conditions of the split (and of the prefetch compute phase)
kernel: `-1 + -16 * gid(0) + -1 * lid(0) + n >= 0` and the same for
dimension 1. -/
def splitGuards : List CExp :=
  [ci (-1) + ci (-16) * g0 + ci (-1) * l0 + nV,
   ci (-1) + ci (-16) * g1 + ci (-1) * l1 + nV]

/-- The kernel generated after splitting both inames by 16 with
`g.1/l.1` and `g.0/l.0` tags: one guarded, loop-free assignment. -/
def splitKernel : GKernel :=
  { wgsize := [16, 16, 1]
    locals := []
    body := Stm.guarded splitGuards (Stm.assign "result" splitStoreIdx splitRhs) }

/-- The guarded double fetch loop of the prefetch kernel, copying the
footprint of `u` into `u_fetch`. -/
def fetchPhase : Stm :=
  Stm.forUp "u_dim_1_outer" (ci 0) (ci 1)
    (Stm.guarded
      [ci 17 + ci (-16) * o1V + ci (-1) * l0,
       ci 1 + ci (-16) * o1V + ci (-1) * l0 + ci (-16) * g0 + nV]
      (Stm.forUp "u_dim_0_outer" (ci 0) (ci 1)
        (Stm.guarded
          [ci 17 + ci (-16) * o0V + ci (-1) * l1,
           ci 1 + ci (-16) * o0V + ci (-1) * l1 + ci (-16) * g1 + nV]
          (Stm.assign "u_fetch"
            (ci 18 * (l1 + o0V * ci 16) + l0 + o1V * ci 16)
            (CExp.read "u"
              ((ci 2 + nV) * (ci 16 * g1 + l1 + o0V * ci 16) +
                ci 16 * g0 + l0 + o1V * ci 16))))))

/-- The synchronization statement of the prefetch kernel:
`barrier(CLK_LOCAL_MEM_FENCE)`. -/
def syncStm : Stm := Stm.barrier "CLK_LOCAL_MEM_FENCE"

/-- The guarded compute phase of the prefetch kernel, reading only the
staging buffer `u_fetch`. -/
def computePhase : Stm :=
  Stm.guarded splitGuards
    (Stm.assign "result" splitStoreIdx
      (stencilRhs
        (CExp.read "u_fetch" (ci 18 * (ci 1 + l1) + ci 1 + l0))
        (CExp.read "u_fetch" (ci 18 * (ci 2 + l1) + ci 1 + l0))
        (CExp.read "u_fetch" (ci 18 * l1 + ci 1 + l0))
        (CExp.read "u_fetch" (ci 18 * (ci 1 + l1) + ci 2 + l0))
        (CExp.read "u_fetch" (ci 18 * (ci 1 + l1) + l0))))

/-- The kernel generated after `add_prefetch(sknl, "u", [i_inner, j_inner],
fetch_bounding_box=True)`: a `__local float u_fetch[18 * 18]` staging buffer,
the guarded fetch loops, one barrier, then the guarded compute phase. -/
def prefetchKernel : GKernel :=
  { wgsize := [16, 16, 1]
    locals := [("u_fetch", ci 18 * ci 18)]
    body := Stm.seq fetchPhase (Stm.seq syncStm computePhase) }

/-- Does a statement contain a `for` loop construct? -/
def hasLoop : Stm → Bool
  | Stm.assign _ _ _ => false
  | Stm.barrier _ => false
  | Stm.forUp _ _ _ _ => true
  | Stm.guarded _ s => hasLoop s
  | Stm.seq a b => hasLoop a || hasLoop b

/-- Does a statement contain a guard (`if`) construct? -/
def hasGuard : Stm → Bool
  | Stm.assign _ _ _ => false
  | Stm.barrier _ => false
  | Stm.forUp _ _ _ s => hasGuard s
  | Stm.guarded _ _ => true
  | Stm.seq a b => hasGuard a || hasGuard b

/-- Number of barrier statements contained in a statement. -/
def countBarriers : Stm → Nat
  | Stm.assign _ _ _ => 0
  | Stm.barrier _ => 1
  | Stm.forUp _ _ _ s => countBarriers s
  | Stm.guarded _ s => countBarriers s
  | Stm.seq a b => countBarriers a + countBarriers b

/-- Does an expression mention a group coordinate `gid(k)`? -/
def usesGidE : CExp → Bool
  | CExp.lit _ => false
  | CExp.var _ => false
  | CExp.gid _ => true
  | CExp.lid _ => false
  | CExp.add a b => usesGidE a || usesGidE b
  | CExp.mul a b => usesGidE a || usesGidE b
  | CExp.read _ i => usesGidE i

/-- Does a statement mention a group coordinate `gid(k)`? -/
def usesGidS : Stm → Bool
  | Stm.assign _ i r => usesGidE i || usesGidE r
  | Stm.barrier _ => false
  | Stm.forUp _ lo hi s => usesGidE lo || usesGidE hi || usesGidS s
  | Stm.guarded cs s => cs.any usesGidE || usesGidS s
  | Stm.seq a b => usesGidS a || usesGidS b

/-- The names of the arrays read by an expression, in textual order, with
duplicates. -/
def readsOfE : CExp → List String
  | CExp.lit _ => []
  | CExp.var _ => []
  | CExp.gid _ => []
  | CExp.lid _ => []
  | CExp.add a b => readsOfE a ++ readsOfE b
  | CExp.mul a b => readsOfE a ++ readsOfE b
  | CExp.read a i => a :: readsOfE i

/-- The names of the arrays read by a statement (guards and loop bounds
included), in textual order, with duplicates. -/
def readsOfS : Stm → List String
  | Stm.assign _ i r => readsOfE i ++ readsOfE r
  | Stm.barrier _ => []
  | Stm.forUp _ lo hi s => readsOfE lo ++ readsOfE hi ++ readsOfS s
  | Stm.guarded cs s => cs.flatMap readsOfE ++ readsOfS s
  | Stm.seq a b => readsOfS a ++ readsOfS b

/-- The names of the distinct arrays read by a statement, in textual order. -/
def stmReadArrays (s : Stm) : List String :=
  (readsOfS s).dedup

/-- The names of the arrays written by a statement, in textual order, with
duplicates. -/
def writesOfS : Stm → List String
  | Stm.assign a _ _ => [a]
  | Stm.barrier _ => []
  | Stm.forUp _ _ _ s => writesOfS s
  | Stm.guarded _ s => writesOfS s
  | Stm.seq a b => writesOfS a ++ writesOfS b

/-- The names of the distinct arrays written by a statement, in textual
order. -/
def stmWriteArrays (s : Stm) : List String :=
  (writesOfS s).dedup

/-- The guard conditions of a statement whose outermost construct is a guard
(`[]` otherwise). -/
def topGuards : Stm → List CExp
  | Stm.guarded cs _ => cs
  | _ => []

/-- All guard conditions of the split kernel hold in `env` (each atom is a
`>= 0` comparison). -/
def guardHolds (env : Env) (s : Stm) : Prop :=
  ∀ c ∈ topGuards s, 0 ≤ evalE env c

/-- Modelled from the spec: `lp.split_iname` is not part of this repository
(the notebooks call it as a black box), so the split of a domain is modelled
from the specification's contract: `split(domain, iname, factor)` replaces
`iname` with inames `outer`, `inner` such that `iname = outer*factor + inner`
and `0 <= inner < factor`, the original bound being re-expressed on the new
pair.  A domain is the predicate `P` its constraints induce on the iname; the
split domain constrains the pair `(outer, inner)`. -/
def splitDomain (P : Int → Prop) (factor : Int) (outer inner : Int) : Prop :=
  0 ≤ inner ∧ inner < factor ∧ P (outer * factor + inner)

/-- Flat memory offset of a multi-dimensional access:
`sum(index_k * stride_k)`. -/
def flatOffset (idxs strides : List Int) : Int :=
  (List.zipWith (· * ·) idxs strides).sum

/-- The split factor used by the notebook: 16. -/
def tile : Int := 16

/-- The stencil's per-dimension access offsets around the center `i + 1`,
read off the instruction `result[i+1, j+1] = u[i+1,j+1]**2 + -1 +
(-4)*u[i+1,j+1] + u[i+1+1,j+1] + u[i+1+-1,j+1] + u[i+1,j+1+1] +
u[i+1,j+1+-1]`: each dimension is accessed at offsets `0`, `1`, `-1`. -/
def stencilOffsets : List Int := [0, 1, -1]

/-- The per-dimension access footprint of `u` within one work group after the
16-split, relative to the tile origin: the values `l + 1 + d` for an inner
coordinate `l` in `[0, 16)` and a stencil offset `d`. -/
def footprintDim : Finset Int :=
  ((Finset.Ico (0:Int) tile) ×ˢ stencilOffsets.toFinset).image
    (fun p => p.1 + 1 + p.2)

/-- One entry of the emitted argument manifest: name, shape, and per-dimension
strides (from the printed `dim_tags`). -/
structure ArgSpec where
  name : String
  shape : List CExp
  strides : List CExp
  deriving DecidableEq, Repr

/-- The argument manifest printed for the stencil kernel:
`result: shape (1 + n, 1 + n), dim_tags (N1:stride:1 + n, N0:stride:1)` and
`u: shape (2 + n, 2 + n), dim_tags (N1:stride:2 + n, N0:stride:1)`. -/
def kernelArgs : List ArgSpec :=
  [⟨"result", [ci 1 + nV, ci 1 + nV], [ci 1 + nV, ci 1]⟩,
   ⟨"u", [ci 2 + nV, ci 2 + nV], [ci 2 + nV, ci 1]⟩]

/-- The multi-indices at which the stencil instruction reads `u`, as functions
of the inames `i`, `j` (from the instruction's right-hand side). -/
def uAccessPairs (i j : Int) : List (Int × Int) :=
  [(i + 1, j + 1), (i + 1 + 1, j + 1), (i + 1 + -1, j + 1),
   (i + 1, j + 1 + 1), (i + 1, j + 1 + -1)]

/-- The multi-indices at which the stencil instruction writes `result`. -/
def resultAccessPairs (i j : Int) : List (Int × Int) :=
  [(i + 1, j + 1)]

/-- The set of dimension-0 indices of an array touched by accesses `acc` as
`(i, j)` ranges over the iteration domain `0 <= i, j < n`. -/
def accessedDim0 (acc : Int → Int → List (Int × Int)) (n : Int) : Set Int :=
  {x | ∃ i j, 0 ≤ i ∧ i < n ∧ 0 ≤ j ∧ j < n ∧ x ∈ (acc i j).map Prod.fst}

/-- The set of dimension-1 indices of an array touched by accesses `acc` as
`(i, j)` ranges over the iteration domain `0 <= i, j < n`. -/
def accessedDim1 (acc : Int → Int → List (Int × Int)) (n : Int) : Set Int :=
  {x | ∃ i j, 0 ≤ i ∧ i < n ∧ 0 ≤ j ∧ j < n ∧ x ∈ (acc i j).map Prod.snd}

/-- Modelled from the spec: a kernel description as threaded through the
notebook session — `lp.make_kernel`'s result is not part of this repository,
so it is modelled as the immutable record the spec's data model prescribes:
inames, iname execution tags, instruction identifiers, split records and
scoped temporaries. -/
structure KernelD where
  inames : List String
  iTags : List (String × String)
  insnIds : List String
  splits : List (String × Int)
  temps : List (String × Int)
  deriving DecidableEq, Repr

/-- Modelled from the spec: `tag_inames` attaches execution-kind annotations
to inames; a pure rewrite returning a new description. -/
def tagInames (k : KernelD) (tags : List (String × String)) : KernelD :=
  { k with iTags := tags ++ k.iTags }

/-- Modelled from the spec: `split_iname` replaces the iname by
`<iname>_outer` and `<iname>_inner`, records the split factor, and tags the
new pair as requested; a pure rewrite returning a new description. -/
def splitInameK (k : KernelD) (iname : String) (factor : Int)
    (outerTag innerTag : String) : KernelD :=
  { k with
    inames := k.inames.filter (fun x => x ≠ iname) ++
      [iname ++ "_outer", iname ++ "_inner"]
    iTags := (iname ++ "_outer", outerTag) :: (iname ++ "_inner", innerTag) ::
      k.iTags
    splits := (iname, factor) :: k.splits }

/-- Modelled from the spec: `add_prefetch` allocates a scoped staging
temporary sized to the access footprint and inserts the fetch instruction
(`u_fetch` / `u_fetch_rule` in the generated code); a pure rewrite returning
a new description. -/
def addPrefetchK (k : KernelD) (arrName : String) (footprintSize : Int) :
    KernelD :=
  { k with
    temps := (arrName ++ "_fetch", footprintSize) :: k.temps
    insnIds := (arrName ++ "_fetch_rule") :: k.insnIds }

/-- Look up a named kernel reference in a session environment (later bindings
shadow earlier ones). -/
def lookupK : List (String × KernelD) → String → Option KernelD
  | [], _ => none
  | (y, k) :: rest, x => if x = y then some k else lookupK rest x

/-- Apply a transformation to the kernel referenced by `src` and bind the
resulting new description to `dst` (a no-op when `src` is unbound); all
prior bindings are kept. -/
def applyTransform (e : List (String × KernelD)) (dst src : String)
    (t : KernelD → KernelD) : List (String × KernelD) :=
  match lookupK e src with
  | none => e
  | some k => (dst, t k) :: e

/-- The stencil kernel description built by `make_kernel` (from the printed
kernel: inames `i` and `j`, both untagged, the single instruction `insn`, no
splits, no temporaries). -/
def stencilKernelD : KernelD := ⟨["i", "j"], [], ["insn"], [], []⟩

/-- An instruction-dependency graph: instruction identifiers and dependency
pairs `(a, b)` meaning `a` depends on `b` (`b` must be scheduled first). -/
structure InsnGraph where
  insnIds : List Nat
  deps : List (Nat × Nat)
  deriving DecidableEq, Repr

/-- An instruction is ready when none of its dependency predecessors is still
unscheduled. -/
def readyInsn (deps : List (Nat × Nat)) (remaining : List Nat) (x : Nat) :
    Bool :=
  deps.all (fun p => p.1 != x || !(remaining.contains p.2))

/-- All valid linearizations of the remaining instructions: repeatedly pick
any ready instruction (fuel-indexed; total once the fuel covers the number of
instructions). -/
def linsAux (deps : List (Nat × Nat)) : Nat → List Nat → List (List Nat)
  | _, [] => [[]]
  | 0, _ :: _ => []
  | fuel + 1, x :: xs =>
    ((x :: xs).filter (readyInsn deps (x :: xs))).flatMap
      (fun y => (linsAux deps fuel ((x :: xs).erase y)).map (fun s => y :: s))

/-- Modelled from the spec: the scheduler's search space — every valid
linearization of the instruction graph (the scheduler itself is called as a
black box by the notebooks). -/
def linearizations (g : InsnGraph) : List (List Nat) :=
  linsAux g.deps g.insnIds.length g.insnIds

/-- A scheduling result: the chosen linearization plus surfaced non-fatal
warnings. -/
structure SchedResult where
  schedule : List Nat
  warnings : List String
  deriving DecidableEq, Repr

/-- Modelled from the spec: the scheduler picks the first (declaration-order
biased) valid linearization; when more than one valid linearization exists it
surfaces the non-fatal `AmbiguousScheduleWarning` and still commits to one. -/
def scheduleKernel (g : InsnGraph) : Option SchedResult :=
  match linearizations g with
  | [] => none
  | [s] => some ⟨s, []⟩
  | s :: _ :: _ => some ⟨s, ["AmbiguousScheduleWarning"]⟩

/-- Modelled from the spec: code generation lowers the chosen schedule to
output lines; warnings are passed through to the caller and never suppress
generation. -/
def generateCode (g : InsnGraph) : Option (List String × List String) :=
  (scheduleKernel g).map
    (fun r => (r.schedule.map (fun k => "insn_" ++ toString k), r.warnings))

/-- Sequential inclusive scan of a list with running accumulator `acc`. -/
def seqScan (acc : Int) : List Int → List Int
  | [] => []
  | x :: xs => (acc + x) :: seqScan (acc + x) xs

/-- Modelled from the spec: the `np.cumsum` reference — entry `i` of the
result is the sum of the first `i + 1` entries. -/
def npCumsum (xs : List Int) : List Int :=
  (List.range xs.length).map (fun i => (xs.take (i + 1)).sum)

/-- Split a list into consecutive blocks of size `g` (fuel-indexed; total for
`g ≥ 1` once the fuel covers the length). -/
def chunkAux (g : Nat) : Nat → List Int → List (List Int)
  | _, [] => []
  | 0, _ :: _ => []
  | fuel + 1, x :: xs => (x :: xs).take g :: chunkAux g fuel ((x :: xs).drop g)

/-- Split a list into consecutive blocks of size `g`. -/
def chunkList (g : Nat) (xs : List Int) : List (List Int) :=
  chunkAux g xs.length xs

/-- Scan a list of blocks: each block is scanned locally with the associative
operation `a + b` and neutral `0`, then offset by the carry (the sum of all
earlier blocks), exactly the two-phase block structure of the scan kernel. -/
def scanBlocksSeeded (acc : Int) : List (List Int) → List Int
  | [] => []
  | b :: bs =>
    (seqScan 0 b).map (fun v => acc + v) ++ scanBlocksSeeded (acc + b.sum) bs

/-- Modelled from the spec: `GenericScanKernel` with `scan_expr = a + b`,
`neutral = 0` and input expression `inputExpr` applied elementwise — the
device scan maps the input expression over the array, splits it into
work-group blocks, scans each block locally and adds each block's carry-in. -/
def genericScanModel (g : Nat) (inputExpr : Int → Int) (xs : List Int) :
    List Int :=
  scanBlocksSeeded 0 (chunkList g (xs.map inputExpr))

/-- Per-work-item body of the `sum_vector` OpenCL kernel:
`c[gid] = a[gid] + b[gid]`. -/
def sumVectorItem (a b : Nat → Int) (gid : Nat) : Int := a gid + b gid

/-- Launch of `sum_vector` over a global range of `n` work items: the
resulting contents of `c`. -/
def launchSumVector (n : Nat) (a b : Nat → Int) : List Int :=
  (List.range n).map (sumVectorItem a b)

/-- A concrete evaluation environment used by witness instances. -/
def sampleEnv : Env :=
  ⟨fun _ => 7, fun _ => 1, fun _ => 2, fun _ _ => 0⟩

/- ## Theorems -/

theorem evalE_hadd (env : Env) (a b : CExp) :
    evalE env (a + b) = evalE env a + evalE env b := rfl

theorem evalE_hmul (env : Env) (a b : CExp) :
    evalE env (a * b) = evalE env a * evalE env b := rfl

/-- C1: for every domain `P` over an iname and every split factor `f > 0`,
`split_iname` replaces the iname with an outer and an inner iname satisfying
`iname = outer*f + inner` and `0 <= inner < f`, and substituting that relation
back into the resulting domain reproduces exactly the integer point set of the
original domain (round-trip law). -/
theorem C1_split_iname_roundtrip (P : Int → Prop) (f : Int) (hf : 0 < f)
    (x : Int) :
    P x ↔ ∃ o i, splitDomain P f o i ∧ x = o * f + i := by
  constructor
  · intro hx
    refine ⟨x / f, x % f, ⟨Int.emod_nonneg x (ne_of_gt hf),
      Int.emod_lt_of_pos x hf, ?_⟩, (Int.ediv_add_emod' x f).symm⟩
    rwa [Int.ediv_add_emod']
  · rintro ⟨o, i, ⟨_, _, hP⟩, rfl⟩
    exact hP

/-- Witness for C1 at the concrete domain `0 ≤ x < 100`, factor 16,
point 37. -/
theorem C1_split_iname_roundtrip_witness :
    ((0:Int) ≤ 37 ∧ (37:Int) < 100) ↔
      ∃ o i, splitDomain (fun y => 0 ≤ y ∧ y < 100) 16 o i ∧
        (37:Int) = o * 16 + i :=
  C1_split_iname_roundtrip (fun y => 0 ≤ y ∧ y < 100) 16 (by decide) 37

/-- C2 counterexample: the kernel generated with both inames tagged as
outer-parallel (`g.0`/`g.1`) dimensions is loop-free and indexed by group
coordinates, but contains NO guard condition — refuting the claim that the
generated code includes an added guard reproducing the original bound. -/
theorem C2_tagged_kernel_unguarded :
    hasGuard taggedKernel.body = false ∧ hasLoop taggedKernel.body = false ∧
      usesGidS taggedKernel.body = true :=
  ⟨rfl, rfl, rfl⟩

/-- C2 (amended): an outer-parallel tagged iname is lowered with no loop
construct, indexing by the group coordinate; a guard reproducing the original
domain bound is emitted only when the launch grid can overrun the bound — the
purely tagged stencil kernel is loop-free, gid-indexed and unguarded, while
the 16-split kernel is loop-free and bound-guarded, its guards equivalent to
the original bounds `i < n` and `j < n` under `i = 16*gid + lid`. -/
theorem C2_parallel_tag_lowering (env : Env) :
    hasLoop taggedKernel.body = false ∧
    usesGidS taggedKernel.body = true ∧
    hasGuard taggedKernel.body = false ∧
    hasLoop splitKernel.body = false ∧
    hasGuard splitKernel.body = true ∧
    (guardHolds env splitKernel.body ↔
      16 * env.gidv 0 + env.lidv 0 < env.par "n" ∧
      16 * env.gidv 1 + env.lidv 1 < env.par "n") := by
  refine ⟨rfl, rfl, rfl, rfl, rfl, ?_⟩
  simp [guardHolds, splitKernel, topGuards, splitGuards, evalE_hadd,
    evalE_hmul, evalE, ci, nV, g0, g1, l0, l1]
  omega

/-- C3: the prefetch kernel allocates the work-group-local staging buffer
`u_fetch` of extent `18 * 18`, and `18 = tile + 2` is exactly the bounding
box of the per-dimension access footprint (inner coordinate in `[0, 16)`
shifted by the stencil offsets `0`, `1`, `-1` around the center `l + 1`), so
the buffer size equals `(tile + 2)^2` for `tile = 16`. -/
theorem C3_prefetch_buffer_size :
    prefetchKernel.locals = [("u_fetch", ci 18 * ci 18)] ∧
    footprintDim = Finset.Ico 0 (tile + 2) ∧
    footprintDim.card = 18 ∧
    (∀ env : Env, evalE env (ci 18 * ci 18) = (tile + 2) * (tile + 2)) := by
  refine ⟨rfl, by decide, by decide, ?_⟩
  intro env
  rfl

/-- C4: in the code generated after `add_prefetch`, the body is exactly a
guarded fetch phase, then one barrier, then the guarded compute phase; the
fetch phase reads only the backing array `u` and writes only the staging
buffer `u_fetch` (so nothing reads the staging buffer before the barrier);
the barrier is the single one in the kernel and is scoped to the work group
(`CLK_LOCAL_MEM_FENCE`); and the compute phase reads only the staging
buffer. -/
theorem C4_barrier_separates_phases :
    prefetchKernel.body = Stm.seq fetchPhase (Stm.seq syncStm computePhase) ∧
    countBarriers prefetchKernel.body = 1 ∧
    countBarriers fetchPhase = 0 ∧
    countBarriers computePhase = 0 ∧
    syncStm = Stm.barrier "CLK_LOCAL_MEM_FENCE" ∧
    stmReadArrays fetchPhase = ["u"] ∧
    stmWriteArrays fetchPhase = ["u_fetch"] ∧
    stmReadArrays computePhase = ["u_fetch"] ∧
    stmWriteArrays computePhase = ["result"] := by
  refine ⟨rfl, rfl, rfl, rfl, rfl, ?_, ?_, ?_, ?_⟩ <;> decide

/-- C5: whenever more than one valid linearization of the instruction graph
exists, the scheduler surfaces the non-fatal `AmbiguousScheduleWarning` to
the caller and code generation still proceeds with an arbitrary valid choice:
the warning never suppresses generation of output. -/
theorem C5_ambiguous_schedule_nonfatal (g : InsnGraph)
    (h : 1 < (linearizations g).length) :
    ∃ code warns, generateCode g = some (code, warns) ∧
      "AmbiguousScheduleWarning" ∈ warns := by
  rcases hl : linearizations g with _ | ⟨s, rest⟩
  · rw [hl] at h
    simp at h
  · rcases rest with _ | ⟨t, rest⟩
    · rw [hl] at h
      simp at h
    · refine ⟨s.map (fun k => "insn_" ++ toString k),
        ["AmbiguousScheduleWarning"], ?_, by simp⟩
      simp [generateCode, scheduleKernel, hl]

/-- Witness for C5: two independent instructions admit the two linearizations
`[0, 1]` and `[1, 0]`; generation proceeds and the warning is surfaced. -/
theorem C5_ambiguous_schedule_nonfatal_witness :
    ∃ code warns, generateCode ⟨[0, 1], []⟩ = some (code, warns) ∧
      "AmbiguousScheduleWarning" ∈ warns :=
  C5_ambiguous_schedule_nonfatal ⟨[0, 1], []⟩ (by decide)

/-- C6: applying any of the three transformations to a kernel description
referenced by `src` binds a new description to `dst` and leaves every other
reference — in particular the base kernel reused for several independent
transformation chains — observing its original, untransformed kernel. -/
theorem C6_transformations_pure (e : List (String × KernelD))
    (dst src name : String) (t : KernelD → KernelD)
    (ht : (∃ iname factor oT iT,
            t = fun k => splitInameK k iname factor oT iT) ∨
          (∃ tags, t = fun k => tagInames k tags) ∨
          (∃ a sz, t = fun k => addPrefetchK k a sz))
    (hname : name ≠ dst) :
    lookupK (applyTransform e dst src t) name = lookupK e name := by
  clear ht
  unfold applyTransform
  cases h : lookupK e src with
  | none => rfl
  | some k => simp [lookupK, hname]

/-- Witness for C6: in a session binding both `knl` and `sknl` to the stencil
kernel, rebinding `sknl` to its 16-split leaves `knl` unchanged. -/
theorem C6_transformations_pure_witness :
    lookupK (applyTransform [("sknl", stencilKernelD), ("knl", stencilKernelD)]
        "sknl" "sknl" (fun k => splitInameK k "i" 16 "g.1" "l.1")) "knl" =
      lookupK [("sknl", stencilKernelD), ("knl", stencilKernelD)] "knl" :=
  C6_transformations_pure [("sknl", stencilKernelD), ("knl", stencilKernelD)]
    "sknl" "sknl" "knl" (fun k => splitInameK k "i" 16 "g.1" "l.1")
    (Or.inl ⟨"i", 16, "g.1", "l.1", rfl⟩) (by decide)

/-- C7: the code generator lowers a scheduled array reference to the flat
offset `sum(index_k * stride_k)`: the sequential kernel's store
`result[i+1, j+1]` with shape `(1+n, 1+n)` and row-major strides `(1+n, 1)`
is lowered to `result[(1 + n) * (i + 1) + j + 1]`, and the center read of `u`
with strides `(2+n, 1)` to `u[(2 + n) * (i + 1) + j + 1]`. -/
theorem C7_flat_offset_lowering (env : Env) :
    seqKernel.body = Stm.forUp "j" (ci 0) (ci (-1) + nV)
      (Stm.forUp "i" (ci 0) (ci (-1) + nV)
        (Stm.assign "result" seqStoreIdx seqRhs)) ∧
    evalE env seqStoreIdx =
      flatOffset [env.par "i" + 1, env.par "j" + 1] [1 + env.par "n", 1] ∧
    evalE env seqUCenterIdx =
      flatOffset [env.par "i" + 1, env.par "j" + 1] [2 + env.par "n", 1] := by
  refine ⟨rfl, ?_, ?_⟩
  · have h1 : evalE env seqStoreIdx =
        (1 + env.par "n") * (env.par "i" + 1) + env.par "j" + 1 := rfl
    rw [h1]
    simp [flatOffset]
    ring
  · have h2 : evalE env seqUCenterIdx =
        (2 + env.par "n") * (env.par "i" + 1) + env.par "j" + 1 := rfl
    rw [h2]
    simp [flatOffset]
    ring

/-- C8: over the domain `0 <= i, j < n` (nonempty, `n ≥ 1`), the union of the
stencil instruction's access indices of `u` covers exactly `[0, 2 + n)` in
each dimension and that of `result` is contained in `[0, 1 + n)` and reaches
`n`, so the inferred shapes are `u : (2 + n, 2 + n)` and
`result : (1 + n, 1 + n)`; the emitted argument manifest records exactly
these shapes with row-major strides (innermost stride 1). -/
theorem C8_shape_inference (n : Int) (hn : 1 ≤ n) :
    accessedDim0 uAccessPairs n = Set.Ico 0 (2 + n) ∧
    accessedDim1 uAccessPairs n = Set.Ico 0 (2 + n) ∧
    accessedDim0 resultAccessPairs n ⊆ Set.Ico 0 (1 + n) ∧
    n ∈ accessedDim0 resultAccessPairs n ∧
    accessedDim1 resultAccessPairs n ⊆ Set.Ico 0 (1 + n) ∧
    n ∈ accessedDim1 resultAccessPairs n ∧
    ∀ env : Env, env.par "n" = n →
      kernelArgs.map
        (fun a => (a.name, a.shape.map (evalE env),
          a.strides.map (evalE env))) =
        [("result", [1 + n, 1 + n], [1 + n, 1]),
         ("u", [2 + n, 2 + n], [2 + n, 1])] := by
  refine ⟨?_, ?_, ?_, ?_, ?_, ?_, ?_⟩
  · ext x
    constructor
    · rintro ⟨i, j, hi0, hi1, hj0, hj1, hmem⟩
      simp [uAccessPairs] at hmem
      rw [Set.mem_Ico]
      omega
    · intro hx
      rw [Set.mem_Ico] at hx
      by_cases hc : x = 0
      · refine ⟨0, 0, by omega, by omega, by omega, by omega, ?_⟩
        simp [uAccessPairs] <;> omega
      · by_cases hc2 : x ≤ n
        · refine ⟨x - 1, 0, by omega, by omega, by omega, by omega, ?_⟩
          simp [uAccessPairs] <;> omega
        · refine ⟨n - 1, 0, by omega, by omega, by omega, by omega, ?_⟩
          simp [uAccessPairs] <;> omega
  · ext x
    constructor
    · rintro ⟨i, j, hi0, hi1, hj0, hj1, hmem⟩
      simp [uAccessPairs] at hmem
      rw [Set.mem_Ico]
      omega
    · intro hx
      rw [Set.mem_Ico] at hx
      by_cases hc : x = 0
      · refine ⟨0, 0, by omega, by omega, by omega, by omega, ?_⟩
        simp [uAccessPairs] <;> omega
      · by_cases hc2 : x ≤ n
        · refine ⟨0, x - 1, by omega, by omega, by omega, by omega, ?_⟩
          simp [uAccessPairs] <;> omega
        · refine ⟨0, n - 1, by omega, by omega, by omega, by omega, ?_⟩
          simp [uAccessPairs] <;> omega
  · rintro x ⟨i, j, hi0, hi1, hj0, hj1, hmem⟩
    simp [resultAccessPairs] at hmem
    rw [Set.mem_Ico]
    omega
  · refine ⟨n - 1, 0, by omega, by omega, by omega, by omega, ?_⟩
    simp [resultAccessPairs] <;> omega
  · rintro x ⟨i, j, hi0, hi1, hj0, hj1, hmem⟩
    simp [resultAccessPairs] at hmem
    rw [Set.mem_Ico]
    omega
  · refine ⟨0, n - 1, by omega, by omega, by omega, by omega, ?_⟩
    simp [resultAccessPairs] <;> omega
  · intro env he
    simp [kernelArgs, evalE_hadd, evalE, ci, nV, he]

theorem seqScan_shift (xs : List Int) : ∀ acc : Int,
    seqScan acc xs = (seqScan 0 xs).map (fun v => acc + v) := by
  induction xs with
  | nil =>
    intro acc
    simp [seqScan]
  | cons x xs ih =>
    intro acc
    simp only [seqScan, List.map_cons, List.map_map]
    rw [ih (acc + x), ih (0 + x), List.map_map]
    congr 1
    · ring
    · congr 1
      funext v
      simp [Function.comp]
      ring

theorem seqScan_append (xs : List Int) : ∀ (ys : List Int) (acc : Int),
    seqScan acc (xs ++ ys) = seqScan acc xs ++ seqScan (acc + xs.sum) ys := by
  induction xs with
  | nil =>
    intro ys acc
    simp [seqScan]
  | cons x xs ih =>
    intro ys acc
    simp only [List.cons_append, seqScan, List.sum_cons, List.append_eq]
    rw [ih ys (acc + x)]
    simp [add_assoc]

theorem chunkAux_flatten (g : Nat) (hg : 1 ≤ g) : ∀ (fuel : Nat) (xs : List Int),
    xs.length ≤ fuel → (chunkAux g fuel xs).flatten = xs := by
  intro fuel
  induction fuel with
  | zero =>
    intro xs h
    cases xs with
    | nil => simp [chunkAux]
    | cons x xs => simp at h
  | succ fuel ih =>
    intro xs h
    cases xs with
    | nil => simp [chunkAux]
    | cons x xs =>
      simp only [chunkAux, List.flatten_cons]
      rw [ih ((x :: xs).drop g) (by simp [List.length_drop] at h ⊢; omega)]
      exact List.take_append_drop g (x :: xs)

theorem scanBlocksSeeded_flatten : ∀ (bs : List (List Int)) (acc : Int),
    scanBlocksSeeded acc bs = seqScan acc bs.flatten := by
  intro bs
  induction bs with
  | nil =>
    intro acc
    simp [scanBlocksSeeded, seqScan]
  | cons b bs ih =>
    intro acc
    simp only [scanBlocksSeeded, List.flatten_cons]
    rw [← seqScan_shift b acc, ih (acc + b.sum), seqScan_append b bs.flatten acc]

theorem genericScanModel_eq (g : Nat) (hg : 1 ≤ g) (f : Int → Int)
    (xs : List Int) :
    genericScanModel g f xs = seqScan 0 (xs.map f) := by
  unfold genericScanModel chunkList
  rw [scanBlocksSeeded_flatten, chunkAux_flatten g hg _ _ (le_refl _)]

theorem npCumsum_eq_seqScan (xs : List Int) : npCumsum xs = seqScan 0 xs := by
  induction xs with
  | nil => simp [npCumsum, seqScan]
  | cons x xs ih =>
    simp only [npCumsum, List.length_cons, List.range_succ_eq_map,
      List.map_cons, List.map_map]
    rw [seqScan]
    congr 1
    · simp
    · rw [seqScan_shift xs (0 + x), ← ih]
      simp only [npCumsum, List.map_map]
      congr 1
      funext i
      simp only [Function.comp, List.take_succ_cons, List.sum_cons,
        Nat.succ_eq_add_one]
      omega

/-- C9: the scan kernel configured with input expression `x[i]*x[i]`,
associative scan expression `a+b` and neutral element `0` computes, for every
input array and every index `i` below its length, an output equal to the
inclusive prefix sum of squares (the sum of the squares of the first `i + 1`
entries); over exact arithmetic it coincides with the sequential cumulative
sum of the squared input. -/
theorem C9_scan_prefix_sum_of_squares (wg : Nat) (hwg : 1 ≤ wg)
    (x : List Int) :
    genericScanModel wg (fun v => v * v) x =
      npCumsum (x.map (fun v => v * v)) ∧
    ∀ i, i < x.length →
      (genericScanModel wg (fun v => v * v) x)[i]? =
        some (((x.take (i + 1)).map (fun v => v * v)).sum) := by
  have h1 : genericScanModel wg (fun v => v * v) x =
      npCumsum (x.map (fun v => v * v)) := by
    rw [genericScanModel_eq wg hwg, npCumsum_eq_seqScan]
  refine ⟨h1, ?_⟩
  intro i hi
  rw [h1]
  unfold npCumsum
  rw [List.getElem?_map, List.getElem?_range (by simpa using hi)]
  simp [List.map_take]

/-- Witness for C9: work-group size 2 and the array `[1, 2, 3, 4, 5]`. -/
theorem C9_scan_prefix_sum_of_squares_witness :
    (genericScanModel 2 (fun v => v * v) [1, 2, 3, 4, 5] =
      npCumsum (([1, 2, 3, 4, 5] : List Int).map (fun v => v * v))) ∧
    ∀ i, i < ([1, 2, 3, 4, 5] : List Int).length →
      (genericScanModel 2 (fun v => v * v) [1, 2, 3, 4, 5])[i]? =
        some (((([1, 2, 3, 4, 5] : List Int).take (i + 1)).map
          (fun v => v * v)).sum) :=
  C9_scan_prefix_sum_of_squares 2 (by decide) [1, 2, 3, 4, 5]

/-- C10: after launching the `sum_vector` kernel over a global range of `n`
work items, `c[gid] = a[gid] + b[gid]` holds for every `gid` in `[0, n)`; in
particular, with `a` filled with the constant 15, every element of the output
equals the corresponding element of `b` plus 15. -/
theorem C10_sum_vector_correct (n : Nat) (a b : Nat → Int) (gid : Nat)
    (h : gid < n) :
    (launchSumVector n a b)[gid]? = some (a gid + b gid) ∧
    ((∀ k, a k = 15) →
      (launchSumVector n a b)[gid]? = some (b gid + 15)) := by
  have h1 : (launchSumVector n a b)[gid]? = some (a gid + b gid) := by
    unfold launchSumVector sumVectorItem
    rw [List.getElem?_map, List.getElem?_range h]
    rfl
  refine ⟨h1, fun ha => ?_⟩
  rw [h1, ha gid, add_comm]

/-- Witness for C10: `n = 3`, `a` constantly 15, `b k = k`, `gid = 2`. -/
theorem C10_sum_vector_correct_witness :
    (launchSumVector 3 (fun _ => 15) (fun k => (k : Int)))[2]? =
      some ((fun _ : Nat => (15 : Int)) 2 + (fun k => (k : Int)) 2) ∧
    ((∀ k : Nat, (fun _ : Nat => (15 : Int)) k = 15) →
      (launchSumVector 3 (fun _ => 15) (fun k => (k : Int)))[2]? =
        some ((fun k => (k : Int)) 2 + 15)) :=
  C10_sum_vector_correct 3 (fun _ => 15) (fun k => (k : Int)) 2 (by decide)

/-- Witness for C2 (amended) at a concrete environment. -/
theorem C2_parallel_tag_lowering_witness :
    hasLoop taggedKernel.body = false ∧
    usesGidS taggedKernel.body = true ∧
    hasGuard taggedKernel.body = false ∧
    hasLoop splitKernel.body = false ∧
    hasGuard splitKernel.body = true ∧
    (guardHolds sampleEnv splitKernel.body ↔
      16 * sampleEnv.gidv 0 + sampleEnv.lidv 0 < sampleEnv.par "n" ∧
      16 * sampleEnv.gidv 1 + sampleEnv.lidv 1 < sampleEnv.par "n") :=
  C2_parallel_tag_lowering sampleEnv

/-- Witness for C7 at a concrete environment. -/
theorem C7_flat_offset_lowering_witness :
    seqKernel.body = Stm.forUp "j" (ci 0) (ci (-1) + nV)
      (Stm.forUp "i" (ci 0) (ci (-1) + nV)
        (Stm.assign "result" seqStoreIdx seqRhs)) ∧
    evalE sampleEnv seqStoreIdx =
      flatOffset [sampleEnv.par "i" + 1, sampleEnv.par "j" + 1]
        [1 + sampleEnv.par "n", 1] ∧
    evalE sampleEnv seqUCenterIdx =
      flatOffset [sampleEnv.par "i" + 1, sampleEnv.par "j" + 1]
        [2 + sampleEnv.par "n", 1] :=
  C7_flat_offset_lowering sampleEnv

/-- Witness for C8 at `n = 1`. -/
theorem C8_shape_inference_witness :
    accessedDim0 uAccessPairs 1 = Set.Ico 0 (2 + 1) ∧
    accessedDim1 uAccessPairs 1 = Set.Ico 0 (2 + 1) ∧
    accessedDim0 resultAccessPairs 1 ⊆ Set.Ico 0 (1 + 1) ∧
    (1:Int) ∈ accessedDim0 resultAccessPairs 1 ∧
    accessedDim1 resultAccessPairs 1 ⊆ Set.Ico 0 (1 + 1) ∧
    (1:Int) ∈ accessedDim1 resultAccessPairs 1 ∧
    ∀ env : Env, env.par "n" = 1 →
      kernelArgs.map
        (fun a => (a.name, a.shape.map (evalE env),
          a.strides.map (evalE env))) =
        [("result", [1 + 1, 1 + 1], [1 + 1, 1]),
         ("u", [2 + 1, 2 + 1], [2 + 1, 1])] :=
  C8_shape_inference 1 (by decide)
